import Mathlib

/-!
Verification of the approval-and-release workflow engine of the GSO
inventory management system (an Express/TypeScript application).

The definitions below are a shallow embedding of the route handlers in
server/routes.ts and of the zod schemas in shared/schema.ts.  The
persistence layer (storage.*) is modelled as explicit state passing over a
DB record holding the tables the workflow touches; JavaScript numbers are
modelled as Int (integer quantities) and Rat (decimal costs/amounts), and
Number.toFixed(2) as rounding to two decimal places.  Fallible handlers
return a pair of the resulting store and an Except value, so that an error
path visibly leaves the store it returns.
-/

namespace GSO

/-- Decidable equality of Except values, used to evaluate handler results
on concrete inputs. -/
instance {ε α : Type} [DecidableEq ε] [DecidableEq α] :
    DecidableEq (Except ε α) := fun x y =>
  match x, y with
  | .ok a, .ok b =>
    if h : a = b then isTrue (by rw [h])
    else isFalse (by intro he; cases he; exact h rfl)
  | .error a, .error b =>
    if h : a = b then isTrue (by rw [h])
    else isFalse (by intro he; cases he; exact h rfl)
  | .ok _, .error _ => isFalse (by intro he; cases he)
  | .error _, .ok _ => isFalse (by intro he; cases he)

/-- Rounding to two decimal places: models JavaScript Number.toFixed(2)
on the exact decimal values arising in this code base (ties round up,
as in ECMA toFixed for the nonnegative values used here). -/
def toFixed2 (x : ℚ) : ℚ := ((x * 100 + 1/2).floor : ℚ) / 100

/-- JavaScript truthiness of a nullable string: null/undefined and the
empty string are falsy. -/
def strTruthy : Option String → Bool
  | none => false
  | some s => s != ""

/-- Models the JavaScript idiom (s or undefined) on a nullable string:
null and the empty string both collapse to none. -/
def jsOrNone (o : Option String) : Option String :=
  match o with
  | some s => if s = "" then none else some s
  | none => none

/-- User roles (users.role column). -/
inductive Role
  | admin
  | employee
deriving DecidableEq, Repr

/-- The authenticated session (req.session.userId / req.session.role). -/
structure Session where
  userId : String
  role : Role
deriving DecidableEq, Repr

/-- Request status column: pending | approved | denied | partial.
The constructor partialApproval models the string "partial". -/
inductive ReqStatus
  | pending
  | approved
  | denied
  | partialApproval
deriving DecidableEq, Repr

/-- Status values allowed in a review body by reviewRequestSchema and
reviewReleasedOrderSchema: approved | denied | partial (partialReview
models the string "partial"). -/
inductive ReviewStatus
  | approved
  | denied
  | partialReview
deriving DecidableEq, Repr

/-- The request status string persisted for a given review status. -/
def ReviewStatus.toReqStatus : ReviewStatus → ReqStatus
  | .approved => .approved
  | .denied => .denied
  | .partialReview => .partialApproval

/-- Per-item decision status in a review body: approved | denied. -/
inductive DecStatus
  | approved
  | denied
deriving DecidableEq, Repr

/-- One entry of the itemStatuses JSON map: status plus optional reason. -/
structure ItemStat where
  status : DecStatus
  reason : Option String
deriving DecidableEq, Repr

/-- One element of the itemDecisions array of a review body. -/
structure Decision where
  index : Nat
  status : DecStatus
  reason : Option String
deriving DecidableEq, Repr

/-- A row of the inventory_items table (fields the workflow reads or
writes; timestamps omitted). -/
structure InventoryItem where
  id : String
  supplier : String
  itemName : String
  categoryId : Option String
  location : String
  unitOfMeasure : String
  quantity : Int
  unitCost : ℚ
  amount : ℚ
  remarks : Option String
deriving DecidableEq, Repr

/-- An item payload as validated by itemPayloadSchema. -/
structure ItemPayload where
  supplier : String
  quantity : Int
  unitOfMeasure : String
  itemName : String
  location : String
  unitCost : ℚ
  amount : ℚ
  remarks : Option String
  categoryId : Option String
  categoryName : Option String
deriving DecidableEq, Repr

/-- itemPayloadSchema: supplier/unitOfMeasure/itemName/location nonempty,
quantity a positive integer, unitCost and amount nonnegative. -/
def itemPayloadValid (p : ItemPayload) : Bool :=
  p.supplier != "" && decide (0 < p.quantity) && p.unitOfMeasure != "" &&
  p.itemName != "" && p.location != "" && decide (0 ≤ p.unitCost) &&
  decide (0 ≤ p.amount)

/-- A released item payload as validated by releasedItemPayloadSchema. -/
structure RelPayload where
  inventoryItemId : String
  quantity : Int
  unit : String
  particulars : String
  unitCost : ℚ
  amount : ℚ
  remarks : Option String
deriving DecidableEq, Repr

/-- releasedItemPayloadSchema: quantity a positive integer, unit and
particulars nonempty, unitCost and amount nonnegative. -/
def relPayloadValid (p : RelPayload) : Bool :=
  decide (0 < p.quantity) && p.unit != "" && p.particulars != "" &&
  decide (0 ≤ p.unitCost) && decide (0 ≤ p.amount)

/-- A row of the users table (fields the workflow reads). -/
structure UserRec where
  id : String
  name : String
  email : String
  role : Role
deriving DecidableEq, Repr

/-- Notification type column: success | alert | info. -/
inductive NotifType
  | success
  | alert
  | info
deriving DecidableEq, Repr

/-- A row of the notifications table (fields the workflow writes). -/
structure NotificationRec where
  userId : String
  type : NotifType
  title : String
  message : String
  targetRoute : Option String
deriving DecidableEq, Repr

/-- category_history.change_type values used by the workflow. -/
inductive ChangeType
  | purchase
  | quantityChange
  | locationChange
  | costChange
  | itemAdded
deriving DecidableEq, Repr

/-- A row of the categories table. -/
structure CategoryRec where
  id : String
  name : String
deriving DecidableEq, Repr

/-- A row of the category_history table (snapshot payloads omitted). -/
structure HistoryRec where
  categoryId : String
  itemId : Option String
  changeType : ChangeType
  changedBy : String
deriving DecidableEq, Repr

/-- A row of the audit_events table (snapshot payloads omitted). -/
structure AuditRec where
  entityType : String
  entityId : String
  action : String
  actorId : String
deriving DecidableEq, Repr

/-- single | bulk request type of an inventory request. -/
inductive ReqType
  | single
  | bulk
deriving DecidableEq, Repr

/-- A row of the inventory_requests table. -/
structure InvRequest where
  id : String
  employeeId : String
  requestType : ReqType
  items : List ItemPayload
  itemStatuses : List (Nat × ItemStat)
  status : ReqStatus
  reviewedBy : Option String
deriving DecidableEq, Repr

/-- A row of the released_order_requests table.  partialFlag models the
isPartial column (the caller-declared partial-release flag). -/
structure RelRequest where
  id : String
  employeeId : String
  departmentOffice : String
  rsNo : Option String
  partialFlag : Bool
  items : List RelPayload
  itemStatuses : List (Nat × ItemStat)
  status : ReqStatus
  reviewedBy : Option String
deriving DecidableEq, Repr

/-- A row of the released_order_reports table.  partialFlag models the
isPartial column. -/
structure RelReport where
  sroNo : String
  rsNo : Option String
  departmentOffice : String
  partialFlag : Bool
  items : List RelPayload
  totalAmount : ℚ
  releasedBy : String
  receivedBy : Option String
deriving DecidableEq, Repr

/-- The persistent store seen by the workflow handlers: one list per
table, plus a counter from which fresh row ids are drawn (modelling
gen_random_uuid). -/
structure DB where
  users : List UserRec
  items : List InventoryItem
  categories : List CategoryRec
  categoryHistory : List HistoryRec
  auditEvents : List AuditRec
  invRequests : List InvRequest
  relRequests : List RelRequest
  relReports : List RelReport
  notifications : List NotificationRec
  nextId : Nat
deriving DecidableEq, Repr

/-- storage.getInventoryItemById: first row with the given id. -/
def getInventoryItemById (db : DB) (id : String) : Option InventoryItem :=
  db.items.find? (fun it => decide (it.id = id))

/-- storage.updateInventoryItem restricted to the quantity and amount
columns (the update issued by the release deduction loop). -/
def updateItemQtyAmount (db : DB) (id : String) (q : Int) (a : ℚ) : DB :=
  { db with items := db.items.map fun it =>
      if it.id = id then { it with quantity := q, amount := a } else it }

/-- A fresh row id drawn from the id counter. -/
def freshId (db : DB) : String := "id-" ++ toString db.nextId

/-- storage.createNotification: append one notification row. -/
def pushNotification (db : DB) (n : NotificationRec) : DB :=
  { db with notifications := db.notifications ++ [n] }

/-- The error responses the modelled handlers produce.  zodErr is a 400
schema-validation failure; badRequest / notFound / forbidden carry the
response message; itemNotFound is the 400 "Item not found: X" message;
insufficientStock is the 400 submit-time message reporting both available
and requested quantities; insufficientAvailable is the 400 generate-time
message reporting the available quantity; alreadyProcessed is the 400
"Request already processed" response of the release review;
internalError is a 500. -/
inductive ApiErr
  | zodErr
  | badRequest (msg : String)
  | notFound (msg : String)
  | forbidden (msg : String)
  | itemNotFound (particulars : String)
  | insufficientStock (particulars : String) (available requested : Int)
  | insufficientAvailable (particulars : String) (available : Int)
  | alreadyProcessed
  | internalError
deriving DecidableEq, Repr

/-- The body of POST /api/released-orders/generate after zod parsing
(generateReleasedOrderSchema).  partialFlag models the isPartial field. -/
structure GenerateInput where
  requestId : Option String
  items : Option (List RelPayload)
  departmentOffice : String
  rsNo : Option String
  partialFlag : Option Bool
  receivedBy : Option String
deriving DecidableEq, Repr

/-- generateReleasedOrderSchema: departmentOffice nonempty is required
even when a requestId is supplied; the optional items must each pass
releasedItemPayloadSchema. -/
def generateInputValid (i : GenerateInput) : Bool :=
  i.departmentOffice != "" &&
  (match i.items with
   | none => true
   | some l => l.all relPayloadValid)

/-- Lookup in an itemStatuses map keyed by item index. -/
def lookupStatus (m : List (Nat × ItemStat)) (k : Nat) : Option ItemStat :=
  (m.find? (fun p => decide (p.1 = k))).map (fun p => p.2)

/-- Assignment itemStatuses[k] = v on the JSON object modelled as an
association list: replace an existing binding or append a new one. -/
def setStatus (m : List (Nat × ItemStat)) (k : Nat) (v : ItemStat) :
    List (Nat × ItemStat) :=
  if m.any (fun p => decide (p.1 = k)) then
    m.map (fun p => if p.1 = k then (k, v) else p)
  else
    m ++ [(k, v)]

/-- The items of a release request whose itemStatuses entry is approved
(the filter in the employee branch of the generate handler). -/
def approvedItemsOf (req : RelRequest) : List RelPayload :=
  (req.items.enum.filter (fun p =>
      decide ((lookupStatus req.itemStatuses p.1).map ItemStat.status
        = some DecStatus.approved))).map (fun p => p.2)

/-- Item-set resolution of the generate handler: employees must name one
of their own approved (or partial) requests and release exactly its
approved items, with departmentOffice, rsNo and isPartial taken from the
stored request; admins supply the items directly and their
departmentOffice, rsNo and isPartial are used. -/
def resolveItems (db : DB) (s : Session) (input : GenerateInput) :
    Except ApiErr (List RelPayload × String × Option String × Bool) :=
  match s.role with
  | Role.employee =>
    match input.requestId with
    | none => .error (.badRequest "Request ID is required for employees")
    | some rid =>
      match db.relRequests.find? (fun r => decide (r.id = rid)) with
      | none => .error (.notFound "Request not found")
      | some req =>
        if req.employeeId ≠ s.userId then
          .error (.forbidden "Not authorized to access this request")
        else if req.status ≠ ReqStatus.approved ∧ req.status ≠ ReqStatus.partialApproval then
          .error (.badRequest "Request must be approved before generating report")
        else
          .ok (approvedItemsOf req, req.departmentOffice, jsOrNone req.rsNo, req.partialFlag)
  | Role.admin =>
    match input.items with
    | none => .error (.badRequest "Items are required")
    | some l =>
      if l.isEmpty then .error (.badRequest "Items are required")
      else .ok (l, input.departmentOffice, input.rsNo, input.partialFlag.getD false)

/-- Validation loop of the generate handler: every resolved item is
checked against the live inventory row before anything is written; the
first missing or insufficient item aborts. -/
def validatePhase (db : DB) : List RelPayload → Option ApiErr
  | [] => none
  | p :: rest =>
    match getInventoryItemById db p.inventoryItemId with
    | none => some (.itemNotFound p.particulars)
    | some inv =>
      if inv.quantity < p.quantity then
        some (.insufficientAvailable p.particulars inv.quantity)
      else validatePhase db rest

/-- One step of the deduction loop: re-fetch the live row, subtract the
requested quantity and recompute amount as newQuantity * unitCost;
a missing row is silently skipped. -/
def deductOne (db : DB) (p : RelPayload) : DB :=
  match getInventoryItemById db p.inventoryItemId with
  | none => db
  | some inv =>
    updateItemQtyAmount db p.inventoryItemId (inv.quantity - p.quantity)
      (((inv.quantity - p.quantity : Int) : ℚ) * inv.unitCost)

/-- Deduction loop of the generate handler, in the order given. -/
def deductPhase (db : DB) (l : List RelPayload) : DB := l.foldl deductOne db

/-- POST /api/released-orders/generate: zod validation, item-set
resolution, validate phase, deduct phase, then creation of the released
order report.  The sroNo argument stands for the time/random release
order number generated by the handler. -/
def generateReleasedOrder (db : DB) (s : Session) (input : GenerateInput)
    (sroNo : String) : DB × Except ApiErr RelReport :=
  if generateInputValid input = false then (db, .error .zodErr)
  else
    match resolveItems db s input with
    | .error e => (db, .error e)
    | .ok (l, dept, rs, pf) =>
      match validatePhase db l with
      | some e => (db, .error e)
      | none =>
        let db1 := deductPhase db l
        let report : RelReport :=
          { sroNo := sroNo, rsNo := rs, departmentOffice := dept,
            partialFlag := pf, items := l,
            totalAmount := (l.map (fun p => p.amount)).sum,
            releasedBy := s.userId, receivedBy := input.receivedBy }
        ({ db1 with relReports := db1.relReports ++ [report] }, .ok report)

/-- The body of POST /api/released-orders/request after zod parsing
(createReleasedOrderRequestSchema).  partialFlag models isPartial. -/
structure CreateRelReqInput where
  departmentOffice : String
  rsNo : Option String
  partialFlag : Option Bool
  items : List RelPayload
deriving DecidableEq, Repr

/-- createReleasedOrderRequestSchema: departmentOffice nonempty, at least
one item, every item passing releasedItemPayloadSchema. -/
def createRelReqValid (i : CreateRelReqInput) : Bool :=
  i.departmentOffice != "" && !i.items.isEmpty && i.items.all relPayloadValid

/-- Submit-time validation loop of POST /api/released-orders/request:
each item is re-fetched; a missing item or one whose live quantity is
below the requested quantity aborts, the latter reporting both available
and requested quantities. -/
def submitValidate (db : DB) : List RelPayload → Option ApiErr
  | [] => none
  | p :: rest =>
    match getInventoryItemById db p.inventoryItemId with
    | none => some (.itemNotFound p.particulars)
    | some inv =>
      if inv.quantity < p.quantity then
        some (.insufficientStock p.particulars inv.quantity p.quantity)
      else submitValidate db rest

/-- The admin users of the store (getAllUsers filtered by role). -/
def adminsOf (db : DB) : List UserRec :=
  db.users.filter (fun u => decide (u.role = Role.admin))

/-- Fan-out of one notification per admin user. -/
def notifyAllAdmins (db : DB) (mk : UserRec → NotificationRec) : DB :=
  { db with notifications := db.notifications ++ (adminsOf db).map mk }

/-- POST /api/released-orders/request: zod validation, admin rejection,
per-item stock pre-check, then persistence of a pending request and a
notification to every admin. -/
def createReleasedOrderRequest (db : DB) (s : Session)
    (input : CreateRelReqInput) : DB × Except ApiErr RelRequest :=
  if createRelReqValid input = false then (db, .error .zodErr)
  else if s.role = Role.admin then
    (db, .error (.badRequest "Admins can directly generate released orders without approval"))
  else
    match submitValidate db input.items with
    | some e => (db, .error e)
    | none =>
      let req : RelRequest :=
        { id := freshId db, employeeId := s.userId,
          departmentOffice := input.departmentOffice, rsNo := input.rsNo,
          partialFlag := input.partialFlag.getD false, items := input.items,
          itemStatuses := [], status := ReqStatus.pending, reviewedBy := none }
      let db1 := { db with relRequests := db.relRequests ++ [req],
                           nextId := db.nextId + 1 }
      let db2 := notifyAllAdmins db1 (fun a =>
        { userId := a.id, type := NotifType.alert,
          title := "New Released Order Request",
          message := "Employee has submitted a released order request for "
            ++ toString input.items.length ++ " item(s)",
          targetRoute := some "/process-released-orders" })
      (db2, .ok req)

/-- The body of a review call after zod parsing (reviewRequestSchema and
reviewReleasedOrderSchema share this shape). -/
structure ReviewInput where
  status : ReviewStatus
  itemDecisions : Option (List Decision)
deriving DecidableEq, Repr

/-- storage.updateReleasedOrderRequestStatus: set status, reviewer and
itemStatuses of the matching row. -/
def updateRelRequestStatus (db : DB) (rid : String) (st : ReqStatus)
    (adminId : String) (statuses : List (Nat × ItemStat)) : DB :=
  { db with relRequests := db.relRequests.map fun r =>
      if r.id = rid then
        { r with status := st, reviewedBy := some adminId, itemStatuses := statuses }
      else r }

/-- storage.updateInventoryRequestStatus: set status, reviewer and
itemStatuses of the matching row. -/
def updateInvRequestStatus (db : DB) (rid : String) (st : ReqStatus)
    (adminId : String) (statuses : List (Nat × ItemStat)) : DB :=
  { db with invRequests := db.invRequests.map fun r =>
      if r.id = rid then
        { r with status := st, reviewedBy := some adminId, itemStatuses := statuses }
      else r }

/-- The statusText of the release review: the wording of the employee
notification. -/
def relStatusText : ReviewStatus → String
  | ReviewStatus.approved => "approved"
  | ReviewStatus.partialReview => "partially approved"
  | ReviewStatus.denied => "denied"

/-- POST /api/released-orders/requests/:id/review: NotFound when absent,
"Request already processed" when not pending; itemStatuses are taken from
the per-item decisions when supplied, otherwise every item uniformly gets
the blanket status; the caller-supplied status is persisted as the
request status; the employee is notified (alert when denied, success
otherwise). -/
def reviewReleaseRequest (db : DB) (adminId : String) (rid : String)
    (input : ReviewInput) : DB × Except ApiErr Unit :=
  match db.relRequests.find? (fun r => decide (r.id = rid)) with
  | none => (db, .error (.notFound "Request not found"))
  | some req =>
    if req.status ≠ ReqStatus.pending then (db, .error .alreadyProcessed)
    else
      let statuses :=
        match input.itemDecisions with
        | some ds => ds.foldl
            (fun m d => setStatus m d.index { status := d.status, reason := d.reason }) []
        | none => (List.range req.items.length).map fun i =>
            (i, ({ status := if input.status = ReviewStatus.denied then
                      DecStatus.denied else DecStatus.approved,
                   reason := none } : ItemStat))
      let db1 := updateRelRequestStatus db rid input.status.toReqStatus adminId statuses
      let db2 := pushNotification db1
        { userId := req.employeeId,
          type := if input.status = ReviewStatus.denied then NotifType.alert
                  else NotifType.success,
          title := "Released Order Request " ++ relStatusText input.status,
          message := "Your released order request has been "
            ++ relStatusText input.status ++ ". "
            ++ (if input.status ≠ ReviewStatus.denied then
                  "You can now generate the report." else ""),
          targetRoute := some "/released-orders" }
      (db2, .ok ())

/-- storage get-or-create of a category by name, as inlined in the
handlers: return the existing id or append a new row. -/
def getOrCreateCategory (db : DB) (name : String) : DB × String :=
  match db.categories.find? (fun c => decide (c.name = name)) with
  | some c => (db, c.id)
  | none =>
    let cid := freshId db
    ({ db with categories := db.categories ++ [{ id := cid, name := name }],
               nextId := db.nextId + 1 }, cid)

/-- Category resolution of the review paths: only a truthy categoryName
is considered (get-or-create); otherwise no category. -/
def resolveCategoryName (db : DB) (p : ItemPayload) : DB × Option String :=
  if strTruthy p.categoryName then
    let g := getOrCreateCategory db (p.categoryName.getD "")
    (g.1, some g.2)
  else (db, none)

/-- The inventory row the review paths create from an approved payload:
amount is recomputed as (quantity * unitCost).toFixed(2), never trusted
from the client. -/
def mkApprovalItem (p : ItemPayload) (categoryId : Option String)
    (id : String) : InventoryItem :=
  { id := id, supplier := p.supplier, itemName := p.itemName,
    categoryId := categoryId, location := p.location,
    unitOfMeasure := p.unitOfMeasure, quantity := p.quantity,
    unitCost := p.unitCost,
    amount := toFixed2 ((p.quantity : ℚ) * p.unitCost),
    remarks := jsOrNone p.remarks }

/-- Creation of one inventory item from an approved payload in the review
handler: category get-or-create, row insertion, and a category-history
entry when a category resolved. -/
def createItemFromApproval (db : DB) (adminId : String) (p : ItemPayload) :
    DB × InventoryItem :=
  let rc := resolveCategoryName db p
  let item := mkApprovalItem p rc.2 (freshId rc.1)
  let db2 := { rc.1 with items := rc.1.items ++ [item], nextId := rc.1.nextId + 1 }
  match rc.2 with
  | some cid =>
    ({ db2 with categoryHistory := db2.categoryHistory ++
        [{ categoryId := cid, itemId := some item.id,
           changeType := ChangeType.itemAdded, changedBy := adminId }] }, item)
  | none => (db2, item)

/-- The per-item decision loop of the bulk branch of the inventory review:
record each decision in itemStatuses, create an inventory item for each
approved decision, and count approvals and denials.  An approved decision
whose index lies outside the items array makes the original handler throw
(a TypeError on an undefined element), caught as a 500; the writes of the
earlier iterations keep their effect. -/
def processDecisions (adminId : String) (items : List ItemPayload) :
    DB → List Decision → List (Nat × ItemStat) → Nat → Nat →
    List InventoryItem →
    DB × Except Unit (List (Nat × ItemStat) × Nat × Nat × List InventoryItem)
  | db, [], st, a, d, created => (db, .ok (st, a, d, created))
  | db, dec :: rest, st, a, d, created =>
    let st1 := setStatus st dec.index { status := dec.status, reason := dec.reason }
    match dec.status with
    | DecStatus.denied => processDecisions adminId items db rest st1 a (d + 1) created
    | DecStatus.approved =>
      match items.get? dec.index with
      | none => (db, .error ())
      | some p =>
        let r := createItemFromApproval db adminId p
        processDecisions adminId items r.1 rest st1 (a + 1) d (created ++ [r.2])

/-- The blanket-approval loop of the inventory review: create an
inventory item for every payload, marking every index approved. -/
def createAllItems (adminId : String) :
    DB → List ItemPayload → Nat →
    DB × List (Nat × ItemStat) × List InventoryItem
  | db, [], _ => (db, [], [])
  | db, p :: rest, i =>
    let r := createItemFromApproval db adminId p
    let rest0 := createAllItems adminId r.1 rest (i + 1)
    (rest0.1,
     (i, ({ status := DecStatus.approved, reason := none } : ItemStat)) :: rest0.2.1,
     r.2 :: rest0.2.2)

/-- The result body of the inventory review handler. -/
structure ReviewResult where
  approvedCount : Nat
  deniedCount : Nat
  createdItems : List InventoryItem
deriving DecidableEq, Repr

/-- The employee notification message of the inventory review, branching
on the caller status and the counters exactly as the handler does. -/
def employeeReviewMessage (inputStatus : ReviewStatus) (itemCount a d : Nat)
    (created : List InventoryItem) : String :=
  if inputStatus = ReviewStatus.approved ∨ a = itemCount then
    if created.length = 1 then
      "Your item \"" ++ ((created.head?.map (fun it => it.itemName)).getD "")
        ++ "\" has been approved and added to inventory!"
    else
      "All " ++ toString created.length ++ " items have been approved and added to inventory!"
  else if inputStatus = ReviewStatus.denied ∨ d = itemCount then
    "Your request has been denied."
  else
    toString a ++ " items approved, " ++ toString d
      ++ " items denied. Check the request for details."

/-- The employee notification of the inventory review: its type, title
and target route depend only on the approvedCount counter. -/
def notifyReviewedEmployee (db : DB) (req : InvRequest)
    (inputStatus : ReviewStatus) (a d : Nat)
    (created : List InventoryItem) : DB :=
  pushNotification db
    { userId := req.employeeId,
      type := if 0 < a then NotifType.success else NotifType.alert,
      title := if 0 < a then "Items Approved" else "Request Denied",
      message := employeeReviewMessage inputStatus req.items.length a d created,
      targetRoute := some (if 0 < a then "/inventory" else "/requests") }

/-- PATCH /api/requests/:id (inventory request review): NotFound when the
request is absent; there is no pending-status check.  A bulk request with
per-item decisions runs the decision loop and persists the status derived
from the counters; every other shape runs the blanket branch, creating
all items when the caller status is approved (all denied otherwise) and
persisting the caller-supplied status.  The blanket branch leaves both
counters at zero.  The employee is then notified. -/
def reviewInventoryRequest (db : DB) (adminId : String) (rid : String)
    (input : ReviewInput) : DB × Except ApiErr ReviewResult :=
  match db.invRequests.find? (fun r => decide (r.id = rid)) with
  | none => (db, .error (.notFound "Request not found"))
  | some req =>
    match req.requestType, input.itemDecisions with
    | ReqType.bulk, some ds =>
      match processDecisions adminId req.items db ds [] 0 0 [] with
      | (db1, .error _) => (db1, .error .internalError)
      | (db1, .ok (st, a, d, created)) =>
        let finalStatus :=
          if a = req.items.length then ReqStatus.approved
          else if d = req.items.length then ReqStatus.denied
          else ReqStatus.partialApproval
        let db2 := updateInvRequestStatus db1 rid finalStatus adminId st
        let db3 := notifyReviewedEmployee db2 req input.status a d created
        (db3, .ok { approvedCount := a, deniedCount := d, createdItems := created })
    | _, _ =>
      if input.status = ReviewStatus.approved then
        let r := createAllItems adminId db req.items 0
        let db2 := updateInvRequestStatus r.1 rid input.status.toReqStatus adminId r.2.1
        let db3 := notifyReviewedEmployee db2 req input.status 0 0 r.2.2
        (db3, .ok { approvedCount := 0, deniedCount := 0, createdItems := r.2.2 })
      else
        let st := (List.range req.items.length).map fun i =>
          (i, ({ status := DecStatus.denied, reason := none } : ItemStat))
        let db2 := updateInvRequestStatus db rid input.status.toReqStatus adminId st
        let db3 := notifyReviewedEmployee db2 req input.status 0 0 []
        (db3, .ok { approvedCount := 0, deniedCount := 0, createdItems := [] })

/-- POST /api/inventory (admin direct create): zod validation; category
from a truthy categoryName (get-or-create) else a truthy categoryId;
amount is the caller-supplied amount when truthy, else quantity *
unitCost, persisted with toFixed(2); then the row insertion, an optional
category-history entry, and an audit event when the actor exists. -/
def createInventoryItemDirect (db : DB) (adminId : String) (p : ItemPayload) :
    DB × Except ApiErr InventoryItem :=
  if itemPayloadValid p = false then (db, .error .zodErr)
  else
    let rc : DB × Option String :=
      if strTruthy p.categoryName then
        let g := getOrCreateCategory db (p.categoryName.getD "")
        (g.1, some g.2)
      else if strTruthy p.categoryId then (db, p.categoryId)
      else (db, none)
    let amount := if p.amount ≠ 0 then p.amount else (p.quantity : ℚ) * p.unitCost
    let item : InventoryItem :=
      { id := freshId rc.1, supplier := p.supplier, itemName := p.itemName,
        categoryId := rc.2, location := p.location,
        unitOfMeasure := p.unitOfMeasure, quantity := p.quantity,
        unitCost := p.unitCost, amount := toFixed2 amount,
        remarks := jsOrNone p.remarks }
    let db2 := { rc.1 with items := rc.1.items ++ [item], nextId := rc.1.nextId + 1 }
    let db3 : DB :=
      match item.categoryId with
      | some cid =>
        { db2 with categoryHistory := db2.categoryHistory ++
            [{ categoryId := cid, itemId := some item.id,
               changeType := ChangeType.itemAdded, changedBy := adminId }] }
      | none => db2
    let db4 : DB :=
      if (db3.users.find? (fun u => decide (u.id = adminId))).isSome then
        { db3 with auditEvents := db3.auditEvents ++
            [{ entityType := "inventory", entityId := item.id,
               action := "create", actorId := adminId }] }
      else db3
    (db4, .ok item)

/-! ### State projections used by the theorems -/

/-- The persisted status of an inventory request. -/
def invRequestStatusOf (db : DB) (rid : String) : Option ReqStatus :=
  (db.invRequests.find? (fun r => decide (r.id = rid))).map (fun r => r.status)

/-- The persisted itemStatuses of an inventory request. -/
def invRequestStatusesOf (db : DB) (rid : String) : Option (List (Nat × ItemStat)) :=
  (db.invRequests.find? (fun r => decide (r.id = rid))).map (fun r => r.itemStatuses)

/-- The persisted status of a release request. -/
def relRequestStatusOf (db : DB) (rid : String) : Option ReqStatus :=
  (db.relRequests.find? (fun r => decide (r.id = rid))).map (fun r => r.status)

/-- The persisted itemStatuses of a release request. -/
def relRequestStatusesOf (db : DB) (rid : String) : Option (List (Nat × ItemStat)) :=
  (db.relRequests.find? (fun r => decide (r.id = rid))).map (fun r => r.itemStatuses)

/-- The number of approved decisions in a decision list (the value the
approvedCount counter reaches in the bulk review loop). -/
def countApproved (ds : List Decision) : Nat :=
  (ds.filter (fun dec => decide (dec.status = DecStatus.approved))).length

/-- The number of denied decisions in a decision list (the value the
deniedCount counter reaches in the bulk review loop). -/
def countDenied (ds : List Decision) : Nat :=
  (ds.filter (fun dec => decide (dec.status = DecStatus.denied))).length

/-- The itemStatuses map built by recording a list of decisions in order
(the JSON-object assignments of the review loops). -/
def buildStatuses (ds : List Decision) (m : List (Nat × ItemStat)) :
    List (Nat × ItemStat) :=
  ds.foldl (fun acc dec =>
    setStatus acc dec.index { status := dec.status, reason := dec.reason }) m

/-! ### Concrete fixtures for the witnesses and counterexamples -/

/-- An inventory row with ten pieces in stock at unit cost 2. -/
def itemA : InventoryItem :=
  { id := "A", supplier := "s", itemName := "Pen", categoryId := none,
    location := "L", unitOfMeasure := "pcs", quantity := 10, unitCost := 2,
    amount := 20, remarks := none }

/-- An inventory row with three pieces in stock. -/
def itemB : InventoryItem := { itemA with id := "B", quantity := 3, amount := 6 }

/-- An admin session. -/
def adminSession : Session := { userId := "adm", role := Role.admin }

/-- An employee session. -/
def empSession : Session := { userId := "emp", role := Role.employee }

/-- A release payload asking for six pieces of item A. -/
def payload6 : RelPayload :=
  { inventoryItemId := "A", quantity := 6, unit := "pcs", particulars := "Pen",
    unitCost := 2, amount := 12, remarks := none }

/-- A release payload asking for three pieces of item A. -/
def payload3 : RelPayload := { payload6 with quantity := 3, amount := 6 }

/-- A release payload asking for eleven pieces of item A (more than the
ten in stock). -/
def payload11 : RelPayload := { payload6 with quantity := 11, amount := 22 }

/-- A release payload asking for five pieces of item B (more than the
three in stock). -/
def payload5B : RelPayload :=
  { payload6 with inventoryItemId := "B", quantity := 5, amount := 10 }

/-- A store holding just item A. -/
def dbGen : DB :=
  { users := [], items := [itemA], categories := [], categoryHistory := [],
    auditEvents := [], invRequests := [], relRequests := [], relReports := [],
    notifications := [], nextId := 0 }

/-- A generate body that references item A twice (duplicate reference). -/
def genDupInput : GenerateInput :=
  { requestId := none, items := some [payload6, payload6],
    departmentOffice := "Office", rsNo := none, partialFlag := none,
    receivedBy := none }

/-- A generate body that asks for more of item A than is in stock. -/
def genOverInput : GenerateInput :=
  { genDupInput with items := some [payload11] }

/-- An approved release request of employee emp for three pieces of
item A. -/
def relReqApproved : RelRequest :=
  { id := "r1", employeeId := "emp", departmentOffice := "Office A",
    rsNo := some "RS-7", partialFlag := false, items := [payload3],
    itemStatuses := [(0, { status := DecStatus.approved, reason := none })],
    status := ReqStatus.approved, reviewedBy := some "adm" }

/-- The same release request still pending and unreviewed. -/
def relReqPending : RelRequest :=
  { relReqApproved with
    status := ReqStatus.pending,
    itemStatuses := [],
    reviewedBy := none }

/-- A store holding item A and the approved release request. -/
def dbEmp : DB := { dbGen with relRequests := [relReqApproved] }

/-- A store holding item A and the pending release request. -/
def dbRelReview : DB := { dbGen with relRequests := [relReqPending] }

/-- An employee generate body naming request r1 while also supplying its
own departmentOffice, rsNo and isPartial values. -/
def genEmpInput : GenerateInput :=
  { requestId := some "r1", items := none, departmentOffice := "IGNORED",
    rsNo := some "CALLER-RS", partialFlag := some true, receivedBy := none }

/-- The first employee generate call against request r1. -/
def empGen1 : DB × Except ApiErr RelReport :=
  generateReleasedOrder dbEmp empSession genEmpInput "SRO-1"

/-- A second, identical employee generate call against request r1, run on
the store the first call produced. -/
def empGen2 : DB × Except ApiErr RelReport :=
  generateReleasedOrder empGen1.1 empSession genEmpInput "SRO-2"

/-- An inventory-request payload: five pieces at unit cost 10, with the
consistent amount 50. -/
def pay1 : ItemPayload :=
  { supplier := "s", quantity := 5, unitOfMeasure := "pcs", itemName := "Pen",
    location := "L", unitCost := 10, amount := 50, remarks := none,
    categoryId := none, categoryName := none }

/-- A second payload with a different item name. -/
def pay2 : ItemPayload := { pay1 with itemName := "Paper" }

/-- The same payload with a client-supplied amount of 999 that does not
match quantity * unitCost = 50. -/
def payBadAmount : ItemPayload := { pay1 with amount := 999 }

/-- A pending single-item inventory request of employee emp. -/
def invReqPending : InvRequest :=
  { id := "q1", employeeId := "emp", requestType := ReqType.single,
    items := [pay1], itemStatuses := [], status := ReqStatus.pending,
    reviewedBy := none }

/-- The same request already reviewed and approved (terminal). -/
def invReqDone : InvRequest :=
  { invReqPending with
    status := ReqStatus.approved,
    itemStatuses := [(0, { status := DecStatus.approved, reason := none })],
    reviewedBy := some "adm" }

/-- A pending two-item bulk inventory request. -/
def invReqBulk : InvRequest :=
  { id := "q2", employeeId := "emp", requestType := ReqType.bulk,
    items := [pay1, pay2], itemStatuses := [], status := ReqStatus.pending,
    reviewedBy := none }

/-- A store holding the pending single-item request. -/
def dbReview : DB := { dbGen with items := [], invRequests := [invReqPending] }

/-- A store holding the already-approved request (and item A, standing
for the row its first review created). -/
def dbRereview : DB := { dbGen with invRequests := [invReqDone] }

/-- A store holding the pending bulk request. -/
def dbBulk : DB := { dbGen with items := [], invRequests := [invReqBulk] }

/-- A blanket-approval review body (no per-item decisions). -/
def blanketApprove : ReviewInput :=
  { status := ReviewStatus.approved, itemDecisions := none }

/-- A review body with one approved decision covering only item index 0
of a two-item request. -/
def partialCoverInput : ReviewInput :=
  { status := ReviewStatus.partialReview,
    itemDecisions := some [{ index := 0, status := DecStatus.approved, reason := none }] }

/-- A review body whose blanket status says approved while its per-item
decisions deny every item. -/
def denyAllButApproveInput : ReviewInput :=
  { status := ReviewStatus.approved,
    itemDecisions := some [{ index := 0, status := DecStatus.denied, reason := some "other" }] }

/-- A review body with one approved and one denied decision covering a
two-item request exactly. -/
def mixedCoverInput : ReviewInput :=
  { status := ReviewStatus.approved,
    itemDecisions := some
      [{ index := 0, status := DecStatus.approved, reason := none },
       { index := 1, status := DecStatus.denied, reason := some "other" }] }

/-- A store holding item B only. -/
def dbSubmit : DB := { dbGen with items := [itemB] }

/-- A submit body asking to release five pieces of item B (three in
stock). -/
def submitOverInput : CreateRelReqInput :=
  { departmentOffice := "Office A", rsNo := none, partialFlag := none,
    items := [payload5B] }

/-! ## Helper lemmas about the store operations -/

theorem find?_map_preserveId (l : List InventoryItem)
    (u : InventoryItem → InventoryItem) (hu : ∀ it, (u it).id = it.id)
    (i : String) :
    (l.map u).find? (fun it => decide (it.id = i))
      = (l.find? (fun it => decide (it.id = i))).map u := by
  induction l with
  | nil => rfl
  | cons hd tl ih =>
    by_cases h : hd.id = i
    · rw [List.map_cons, List.find?_cons_of_pos _ (by simp [hu, h]),
        List.find?_cons_of_pos _ (by simp [h])]
      rfl
    · rw [List.map_cons, List.find?_cons_of_neg _ (by simp [hu, h]),
        List.find?_cons_of_neg _ (by simp [h]), ih]

theorem updateItemQtyAmount_ids (db : DB) (i : String) (q : Int) (a : ℚ) :
    (updateItemQtyAmount db i q a).items.map (fun it => it.id)
      = db.items.map (fun it => it.id) := by
  unfold updateItemQtyAmount
  simp only [List.map_map]
  exact List.map_congr_left (fun x _ => by by_cases h : x.id = i <;> simp [h])

theorem getItem_update_ne (db : DB) (i i2 : String) (q : Int) (a : ℚ)
    (h : i2 ≠ i) :
    getInventoryItemById (updateItemQtyAmount db i q a) i2
      = getInventoryItemById db i2 := by
  unfold getInventoryItemById updateItemQtyAmount
  rw [find?_map_preserveId _ _
    (fun it => by by_cases hx : it.id = i <;> simp [hx]) i2]
  cases hf : db.items.find? (fun it => decide (it.id = i2)) with
  | none => rfl
  | some x =>
    have hx : x.id = i2 := by simpa using List.find?_some hf
    simp only [Option.map_some']
    rw [if_neg (by rw [hx]; exact h)]

theorem find?_id_unique (l : List InventoryItem) (i : String)
    (inv x : InventoryItem)
    (hnd : (l.map (fun it => it.id)).Nodup)
    (hf : l.find? (fun it => decide (it.id = i)) = some inv)
    (hx : x ∈ l) (hxi : x.id = i) : x = inv := by
  induction l with
  | nil => cases hx
  | cons hd tl ih =>
    rw [List.map_cons, List.nodup_cons] at hnd
    rcases List.mem_cons.1 hx with rfl | hxtl
    · rw [List.find?_cons_of_pos _ (by simp [hxi])] at hf
      exact Option.some.inj hf
    · by_cases hh : hd.id = i
      · exact absurd (by rw [hh, ← hxi]; exact List.mem_map_of_mem _ hxtl) hnd.1
      · rw [List.find?_cons_of_neg _ (by simp [hh])] at hf
        exact ih hnd.2 hf hxtl

theorem updateItemQtyAmount_mem (db : DB) (i : String) (q : Int) (a : ℚ)
    (it : InventoryItem) (hit : it ∈ (updateItemQtyAmount db i q a).items) :
    ∃ x ∈ db.items,
      it = if x.id = i then { x with quantity := q, amount := a } else x := by
  obtain ⟨x, hx, hform⟩ := List.mem_map.1 hit
  exact ⟨x, hx, hform.symm⟩

theorem deductOne_ids (db : DB) (p : RelPayload) :
    (deductOne db p).items.map (fun it => it.id)
      = db.items.map (fun it => it.id) := by
  unfold deductOne
  cases hf : getInventoryItemById db p.inventoryItemId with
  | none => rfl
  | some inv => exact updateItemQtyAmount_ids db p.inventoryItemId _ _

theorem getItem_deductOne_ne (db : DB) (p : RelPayload) (i : String)
    (h : i ≠ p.inventoryItemId) :
    getInventoryItemById (deductOne db p) i = getInventoryItemById db i := by
  unfold deductOne
  cases hf : getInventoryItemById db p.inventoryItemId with
  | none => rfl
  | some inv => exact getItem_update_ne db p.inventoryItemId i _ _ h

theorem validatePhase_cons_none (db : DB) (hd : RelPayload)
    (tl : List RelPayload)
    (hf : getInventoryItemById db hd.inventoryItemId = none) :
    validatePhase db (hd :: tl) = some (ApiErr.itemNotFound hd.particulars) := by
  simp only [validatePhase]
  rw [hf]

theorem validatePhase_cons_some (db : DB) (hd : RelPayload)
    (tl : List RelPayload) (inv : InventoryItem)
    (hf : getInventoryItemById db hd.inventoryItemId = some inv) :
    validatePhase db (hd :: tl)
      = if inv.quantity < hd.quantity then
          some (ApiErr.insufficientAvailable hd.particulars inv.quantity)
        else validatePhase db tl := by
  simp only [validatePhase]
  rw [hf]

theorem validatePhase_congr (l : List RelPayload) (db1 db2 : DB)
    (h : ∀ p ∈ l, getInventoryItemById db1 p.inventoryItemId
          = getInventoryItemById db2 p.inventoryItemId) :
    validatePhase db1 l = validatePhase db2 l := by
  induction l with
  | nil => rfl
  | cons hd tl ih =>
    have hh := h hd (List.mem_cons_self hd tl)
    cases hf2 : getInventoryItemById db2 hd.inventoryItemId with
    | none =>
      rw [validatePhase_cons_none db1 hd tl (hh.trans hf2),
        validatePhase_cons_none db2 hd tl hf2]
    | some inv =>
      rw [validatePhase_cons_some db1 hd tl inv (hh.trans hf2),
        validatePhase_cons_some db2 hd tl inv hf2]
      by_cases hlt : inv.quantity < hd.quantity
      · simp [hlt]
      · simp only [if_neg hlt]
        exact ih (fun p hp => h p (List.mem_cons_of_mem _ hp))

theorem deductOne_nonneg (db : DB) (p : RelPayload) (inv : InventoryItem)
    (hnd : (db.items.map (fun it => it.id)).Nodup)
    (hpos : ∀ it ∈ db.items, 0 ≤ it.quantity)
    (hfind : getInventoryItemById db p.inventoryItemId = some inv)
    (hq : p.quantity ≤ inv.quantity) :
    ∀ it ∈ (deductOne db p).items, 0 ≤ it.quantity := by
  intro it hit
  unfold deductOne at hit
  rw [hfind] at hit
  obtain ⟨x, hx, hform⟩ := updateItemQtyAmount_mem db _ _ _ it hit
  rw [hform]
  by_cases hxi : x.id = p.inventoryItemId
  · have hxe : x = inv := find?_id_unique db.items _ inv x hnd hfind hx hxi
    rw [if_pos hxi]
    simp only
    omega
  · rw [if_neg hxi]
    exact hpos x hx

theorem deductOne_amount (db : DB) (p : RelPayload)
    (hnd : (db.items.map (fun it => it.id)).Nodup)
    (hinv : ∀ it ∈ db.items, it.amount = (it.quantity : ℚ) * it.unitCost) :
    ∀ it ∈ (deductOne db p).items,
      it.amount = (it.quantity : ℚ) * it.unitCost := by
  intro it hit
  unfold deductOne at hit
  cases hf : getInventoryItemById db p.inventoryItemId with
  | none => rw [hf] at hit; exact hinv it hit
  | some inv =>
    rw [hf] at hit
    obtain ⟨x, hx, hform⟩ := updateItemQtyAmount_mem db _ _ _ it hit
    rw [hform]
    by_cases hxi : x.id = p.inventoryItemId
    · have hxe : x = inv := find?_id_unique db.items _ inv x hnd hf hx hxi
      subst hxe
      rw [if_pos hxi]
    · rw [if_neg hxi]
      exact hinv x hx

theorem deductPhase_nonneg (l : List RelPayload) : ∀ db : DB,
    (db.items.map (fun it => it.id)).Nodup →
    (∀ it ∈ db.items, 0 ≤ it.quantity) →
    validatePhase db l = none →
    l.Pairwise (fun p q => p.inventoryItemId ≠ q.inventoryItemId) →
    ∀ it ∈ (deductPhase db l).items, 0 ≤ it.quantity := by
  induction l with
  | nil => intro db _ hpos _ _ it hit; exact hpos it hit
  | cons hd tl ih =>
    intro db hnd hpos hval hpw
    cases hf : getInventoryItemById db hd.inventoryItemId with
    | none => rw [validatePhase_cons_none db hd tl hf] at hval; cases hval
    | some inv =>
      rw [validatePhase_cons_some db hd tl inv hf] at hval
      by_cases hlt : inv.quantity < hd.quantity
      · rw [if_pos hlt] at hval; cases hval
      · rw [if_neg hlt] at hval
        rw [List.pairwise_cons] at hpw
        show ∀ it ∈ (deductPhase (deductOne db hd) tl).items, 0 ≤ it.quantity
        apply ih
        · rw [deductOne_ids]; exact hnd
        · exact deductOne_nonneg db hd inv hnd hpos hf (le_of_not_lt hlt)
        · refine (validatePhase_congr tl (deductOne db hd) db ?_).trans hval
          intro p hp
          exact getItem_deductOne_ne db hd p.inventoryItemId (hpw.1 p hp).symm
        · exact hpw.2

theorem deductPhase_amount (l : List RelPayload) : ∀ db : DB,
    (db.items.map (fun it => it.id)).Nodup →
    (∀ it ∈ db.items, it.amount = (it.quantity : ℚ) * it.unitCost) →
    ∀ it ∈ (deductPhase db l).items,
      it.amount = (it.quantity : ℚ) * it.unitCost := by
  induction l with
  | nil => intro db _ hinv it hit; exact hinv it hit
  | cons hd tl ih =>
    intro db hnd hinv
    show ∀ it ∈ (deductPhase (deductOne db hd) tl).items, _
    apply ih
    · rw [deductOne_ids]; exact hnd
    · exact deductOne_amount db hd hnd hinv

theorem validatePhase_ne_none_of_fail (l : List RelPayload) (db : DB)
    (p : RelPayload) (hp : p ∈ l)
    (hfail : getInventoryItemById db p.inventoryItemId = none ∨
      ∃ inv, getInventoryItemById db p.inventoryItemId = some inv ∧
        inv.quantity < p.quantity) :
    validatePhase db l ≠ none := by
  induction l with
  | nil => cases hp
  | cons hd tl ih =>
    rcases List.mem_cons.1 hp with rfl | hptl
    · cases hf : getInventoryItemById db p.inventoryItemId with
      | none => rw [validatePhase_cons_none db p tl hf]; simp
      | some inv =>
        rcases hfail with hnone | ⟨inv2, hfind2, hlt2⟩
        · rw [hf] at hnone; cases hnone
        · rw [hf] at hfind2
          rw [validatePhase_cons_some db p tl inv hf,
            if_pos (by rw [← Option.some.inj hfind2] at hlt2; exact hlt2)]
          simp
    · cases hf : getInventoryItemById db hd.inventoryItemId with
      | none => rw [validatePhase_cons_none db hd tl hf]; simp
      | some inv =>
        rw [validatePhase_cons_some db hd tl inv hf]
        by_cases hlt : inv.quantity < hd.quantity
        · simp [hlt]
        · rw [if_neg hlt]
          exact ih hptl

theorem deductOne_relRequests (db : DB) (p : RelPayload) :
    (deductOne db p).relRequests = db.relRequests := by
  unfold deductOne
  cases getInventoryItemById db p.inventoryItemId <;> rfl

theorem deductPhase_relRequests (l : List RelPayload) : ∀ db : DB,
    (deductPhase db l).relRequests = db.relRequests := by
  induction l with
  | nil => intro db; rfl
  | cons hd tl ih =>
    intro db
    exact (ih (deductOne db hd)).trans (deductOne_relRequests db hd)

/-! ## Claim C1 -/

/-- Claim C1, counterexample: a Generate call whose item list references
inventory item A (ten in stock) twice, six pieces each, passes the
validation phase, succeeds, and leaves the quantity of A at -2: a
reachable negative quantity with no failure, contradicting the claim that
every quantity stays nonnegative after any Generate call, duplicates
included. -/
theorem generate_duplicate_items_negative_quantity :
    ((generateReleasedOrder dbGen adminSession genDupInput "SRO-1").1.items.map
      (fun it => it.quantity)) = [-2] ∧
    ((generateReleasedOrder dbGen adminSession genDupInput "SRO-1").1.items.all
      (fun it => decide (0 ≤ it.quantity))) = false ∧
    ((generateReleasedOrder dbGen adminSession genDupInput "SRO-1").2.toOption.map
      (fun r => (r.sroNo, r.departmentOffice, r.releasedBy)))
      = some ("SRO-1", "Office", "adm") ∧
    (generateReleasedOrder dbGen adminSession genDupInput "SRO-1").1.relReports.length
      = 1 := by
  refine ⟨by decide, by decide, by decide, by decide⟩

/-- Claim C1, amended: provided the stored inventory rows have pairwise
distinct ids and the resolved item list references pairwise distinct
inventory items, every inventory quantity after a Generate call is
nonnegative whenever it was before; a failing validation leaves the store
untouched.  (The unamended claim fails when the list references the same
item twice, as the counterexample shows.) -/
theorem generate_nonneg_of_distinct_items
    (db : DB) (s : Session) (input : GenerateInput) (sro : String)
    (l : List RelPayload) (dept : String) (rs : Option String) (pf : Bool)
    (hnd : (db.items.map (fun it => it.id)).Nodup)
    (hpos : ∀ it ∈ db.items, 0 ≤ it.quantity)
    (hres : resolveItems db s input = .ok (l, dept, rs, pf))
    (hdist : l.Pairwise (fun p q => p.inventoryItemId ≠ q.inventoryItemId)) :
    ((generateReleasedOrder db s input sro).1.items.all
      (fun it => decide (0 ≤ it.quantity))) = true := by
  rw [List.all_eq_true]
  intro it hit
  rw [decide_eq_true_eq]
  revert it hit
  unfold generateReleasedOrder
  by_cases hv : generateInputValid input = false
  · rw [if_pos hv]; exact hpos
  · rw [if_neg hv]
    simp only [hres]
    cases hval : validatePhase db l with
    | some e => simp only [hval]; exact hpos
    | none =>
      simp only [hval]
      exact deductPhase_nonneg l db hnd hpos hval hdist

/-- Witness for the amended C1 theorem: the employee Generate against the
approved request for three pieces of item A succeeds and every inventory
quantity afterwards (seven pieces of A left) is nonnegative. -/
theorem generate_nonneg_of_distinct_items_witness :
    ((generateReleasedOrder dbEmp empSession genEmpInput "SRO-1").1.items.all
      (fun it => decide (0 ≤ it.quantity))) = true :=
  generate_nonneg_of_distinct_items dbEmp empSession genEmpInput "SRO-1"
    [payload3] "Office A" (some "RS-7") false (by decide) (by decide)
    (by decide) (by decide)

/-! ## Claim C2 -/

/-- Claim C2 (confirmed): when the validation phase of a Generate call
fails for any resolved item (the item is missing, or its live quantity is
below the requested quantity), the whole call returns an error and the
store is returned unchanged: no inventory row is deducted and no released
order report is created. -/
theorem generate_validation_failure_atomic
    (db : DB) (s : Session) (input : GenerateInput) (sro : String)
    (l : List RelPayload) (dept : String) (rs : Option String) (pf : Bool)
    (hres : resolveItems db s input = .ok (l, dept, rs, pf))
    (p : RelPayload) (hp : p ∈ l)
    (hfail : getInventoryItemById db p.inventoryItemId = none ∨
      ∃ inv, getInventoryItemById db p.inventoryItemId = some inv ∧
        inv.quantity < p.quantity) :
    (generateReleasedOrder db s input sro).1 = db ∧
    ∃ e, (generateReleasedOrder db s input sro).2 = Except.error e := by
  have hval := validatePhase_ne_none_of_fail l db p hp hfail
  unfold generateReleasedOrder
  by_cases hv : generateInputValid input = false
  · refine ⟨?_, ApiErr.zodErr, ?_⟩ <;> rw [if_pos hv]
  · cases hcase : validatePhase db l with
    | none => exact absurd hcase hval
    | some e =>
      refine ⟨?_, e, ?_⟩ <;> rw [if_neg hv] <;> simp only [hres, hcase]

/-- Witness for the C2 theorem: an admin Generate asking for eleven
pieces of item A (ten in stock) aborts with an error and leaves the store
unchanged. -/
theorem generate_validation_failure_atomic_witness :
    (generateReleasedOrder dbGen adminSession genOverInput "SRO-1").1 = dbGen ∧
    ∃ e, (generateReleasedOrder dbGen adminSession genOverInput "SRO-1").2
      = Except.error e :=
  generate_validation_failure_atomic dbGen adminSession genOverInput "SRO-1"
    [payload11] "Office" none false (by decide) payload11 (by decide)
    (Or.inr ⟨itemA, by decide, by decide⟩)

/-! ## Claim C5 -/

theorem ratFloor_eq_intFloor (q : ℚ) : q.floor = ⌊q⌋ := rfl

theorem toFixed2_intCast (n : ℤ) : toFixed2 ((n : ℤ) : ℚ) = (n : ℚ) := by
  unfold toFixed2
  have h0 : ((n : ℚ) * 100 + 1/2) = 1/2 + ((100 * n : ℤ) : ℚ) := by
    push_cast
    ring
  rw [ratFloor_eq_intFloor, h0, Int.floor_add_int]
  have h1 : ⌊(1/2 : ℚ)⌋ = 0 := by
    rw [Int.floor_eq_iff]
    norm_num
  rw [h1]
  push_cast
  field_simp

/-- Claim C5, counterexample: the admin direct-create endpoint persists
the caller-supplied amount (999) whenever it is nonzero instead of
recomputing quantity * unitCost (here 5 * 10 = 50), so the created row
violates the amount invariant. -/
theorem direct_create_trusts_client_amount :
    (createInventoryItemDirect dbGen "adm" payBadAmount).2
      = Except.ok
        { id := "id-0", supplier := "s", itemName := "Pen",
          categoryId := none, location := "L", unitOfMeasure := "pcs",
          quantity := 5, unitCost := 10, amount := toFixed2 999,
          remarks := none } ∧
    toFixed2 (999 : ℚ) = 999 ∧
    ((999 : ℚ) ≠ ((5 : ℤ) : ℚ) * 10) := by
  refine ⟨rfl, ?_, ?_⟩
  · have h := toFixed2_intCast 999
    simpa using h
  · push_cast
    norm_num

/-- Claim C5, amended: the release deduction preserves the invariant
amount = quantity * unitCost on every inventory row (so it holds after
any Generate call whenever it held before), and every approval-driven
create computes amount as (quantity * unitCost).toFixed(2); the admin
direct create instead persists the caller-supplied amount whenever it is
nonzero, which can break the invariant, as the counterexample shows. -/
theorem amount_invariant_preserved
    (db : DB) (s : Session) (input : GenerateInput) (sro : String)
    (hnd : (db.items.map (fun it => it.id)).Nodup)
    (hinv : ∀ it ∈ db.items, it.amount = (it.quantity : ℚ) * it.unitCost) :
    (((generateReleasedOrder db s input sro).1.items.all
      (fun it => decide (it.amount = (it.quantity : ℚ) * it.unitCost))) = true) ∧
    ∀ (p : ItemPayload) (cid : Option String) (i : String),
      (mkApprovalItem p cid i).amount
        = toFixed2 (((mkApprovalItem p cid i).quantity : ℚ)
            * (mkApprovalItem p cid i).unitCost) := by
  constructor
  · rw [List.all_eq_true]
    intro it hit
    rw [decide_eq_true_eq]
    revert it hit
    unfold generateReleasedOrder
    by_cases hv : generateInputValid input = false
    · rw [if_pos hv]; exact hinv
    · rw [if_neg hv]
      cases hres : resolveItems db s input with
      | error e => simp only [hres]; exact hinv
      | ok t =>
        obtain ⟨l, dept, rs, pf⟩ := t
        simp only [hres]
        cases hval : validatePhase db l with
        | some e => simp only [hval]; exact hinv
        | none =>
          simp only [hval]
          exact deductPhase_amount l db hnd hinv
  · intro p cid i
    rfl

theorem dbEmp_amount_invariant :
    ∀ it ∈ dbEmp.items, it.amount = (it.quantity : ℚ) * it.unitCost := by
  intro it hit
  have he : it = itemA := by
    have hl : dbEmp.items = [itemA] := rfl
    rw [hl] at hit
    simpa using hit
  subst he
  show (20 : ℚ) = ((10 : ℤ) : ℚ) * 2
  push_cast
  norm_num

/-- Witness for the amended C5 theorem: after the employee Generate call
deducting three pieces of item A, every row satisfies the amount
invariant, and an approval-created row from the concrete payload carries
the recomputed amount. -/
theorem amount_invariant_preserved_witness :
    (((generateReleasedOrder dbEmp empSession genEmpInput "SRO-1").1.items.all
      (fun it => decide (it.amount = (it.quantity : ℚ) * it.unitCost))) = true) ∧
    (mkApprovalItem pay1 none "id-0").amount
      = toFixed2 (((mkApprovalItem pay1 none "id-0").quantity : ℚ)
          * (mkApprovalItem pay1 none "id-0").unitCost) :=
  ⟨(amount_invariant_preserved dbEmp empSession genEmpInput "SRO-1"
      (by decide) dbEmp_amount_invariant).1,
   (amount_invariant_preserved dbEmp empSession genEmpInput "SRO-1"
      (by decide) dbEmp_amount_invariant).2 pay1 none "id-0"⟩

/-! ## Claim C8 -/

/-- Claim C8, counterexample: two identical employee Generate calls
against the same approved release request both succeed — each creates its
own report and deducts the three approved pieces again (quantity of item
A drops from ten to four), and the stored request is still approved: no
Conflict is raised on the second call. -/
theorem second_generate_double_deducts :
    (empGen1.2.toOption.map (fun r => r.sroNo)) = some "SRO-1" ∧
    (empGen2.2.toOption.map (fun r => r.sroNo)) = some "SRO-2" ∧
    empGen2.1.relReports.length = 2 ∧
    (empGen2.1.items.map (fun it => it.quantity)) = [4] ∧
    relRequestStatusOf empGen2.1 "r1" = some ReqStatus.approved := by
  refine ⟨by decide, by decide, by decide, by decide, by decide⟩

/-- Claim C8, amended: Generate never modifies the stored release
requests — nothing marks a request as already generated — so a second
Generate call against a fully deducted request is not rejected as a
Conflict: it re-validates the live stock and, when the stock still
suffices, deducts again and creates a second report (the counterexample),
failing only with the insufficient-stock error otherwise. -/
theorem generate_preserves_release_requests (db : DB) (s : Session)
    (input : GenerateInput) (sro : String) :
    (generateReleasedOrder db s input sro).1.relRequests = db.relRequests := by
  unfold generateReleasedOrder
  by_cases hv : generateInputValid input = false
  · rw [if_pos hv]
  · rw [if_neg hv]
    cases hres : resolveItems db s input with
    | error e => simp only [hres]
    | ok t =>
      obtain ⟨l, dept, rs, pf⟩ := t
      simp only [hres]
      cases hval : validatePhase db l with
      | some e => simp only [hval]
      | none =>
        simp only [hval]
        exact deductPhase_relRequests l db

/-! ## Claim C6 -/

theorem submitValidate_cons_none (db : DB) (hd : RelPayload)
    (tl : List RelPayload)
    (hf : getInventoryItemById db hd.inventoryItemId = none) :
    submitValidate db (hd :: tl) = some (ApiErr.itemNotFound hd.particulars) := by
  simp only [submitValidate]
  rw [hf]

theorem submitValidate_cons_some (db : DB) (hd : RelPayload)
    (tl : List RelPayload) (inv : InventoryItem)
    (hf : getInventoryItemById db hd.inventoryItemId = some inv) :
    submitValidate db (hd :: tl)
      = if inv.quantity < hd.quantity then
          some (ApiErr.insufficientStock hd.particulars inv.quantity hd.quantity)
        else submitValidate db tl := by
  simp only [submitValidate]
  rw [hf]

theorem submitValidate_insufficient (l : List RelPayload) (db : DB)
    (hall : ∀ p ∈ l, (getInventoryItemById db p.inventoryItemId).isSome = true)
    (hex : ∃ p ∈ l, ∃ inv, getInventoryItemById db p.inventoryItemId = some inv ∧
      inv.quantity < p.quantity) :
    ∃ nm avail rq, submitValidate db l
        = some (ApiErr.insufficientStock nm avail rq) ∧ avail < rq := by
  induction l with
  | nil => obtain ⟨p, hp, _⟩ := hex; cases hp
  | cons hd tl ih =>
    cases hf : getInventoryItemById db hd.inventoryItemId with
    | none =>
      have hs := hall hd (List.mem_cons_self hd tl)
      rw [hf] at hs
      cases hs
    | some inv =>
      by_cases hlt : inv.quantity < hd.quantity
      · exact ⟨hd.particulars, inv.quantity, hd.quantity,
          by rw [submitValidate_cons_some db hd tl inv hf, if_pos hlt], hlt⟩
      · rw [submitValidate_cons_some db hd tl inv hf, if_neg hlt]
        apply ih
        · intro p hp
          exact hall p (List.mem_cons_of_mem _ hp)
        · obtain ⟨p, hp, inv2, hfind2, hlt2⟩ := hex
          rcases List.mem_cons.1 hp with rfl | hptl
          · rw [hf] at hfind2
            cases Option.some.inj hfind2
            exact absurd hlt2 hlt
          · exact ⟨p, hptl, inv2, hfind2, hlt2⟩

/-- Claim C6 (confirmed): when every referenced item exists but some
requested quantity exceeds the live quantity, the release-request submit
endpoint rejects the call with the insufficient-stock error carrying both
the available and the requested quantity (available < requested), and the
store is returned unchanged: no request row is persisted and no admin
notification is created. -/
theorem submit_release_insufficient_stock_rejected
    (db : DB) (s : Session) (input : CreateRelReqInput)
    (hrole : s.role = Role.employee)
    (hvalid : createRelReqValid input = true)
    (hall : ∀ p ∈ input.items,
      (getInventoryItemById db p.inventoryItemId).isSome = true)
    (hex : ∃ p ∈ input.items, ∃ inv,
      getInventoryItemById db p.inventoryItemId = some inv ∧
      inv.quantity < p.quantity) :
    (createReleasedOrderRequest db s input).1 = db ∧
    ∃ nm avail rq, (createReleasedOrderRequest db s input).2
        = Except.error (ApiErr.insufficientStock nm avail rq) ∧ avail < rq := by
  obtain ⟨nm, avail, rq, hsv, hlt⟩ :=
    submitValidate_insufficient input.items db hall hex
  unfold createReleasedOrderRequest
  rw [if_neg (by rw [hvalid]; simp), if_neg (by rw [hrole]; simp)]
  refine ⟨?_, nm, avail, rq, ?_, hlt⟩ <;> simp only [hsv]

/-- Witness for the C6 theorem: submitting a release request for five
pieces of item B while only three are in stock fails with
insufficientStock (available 3, requested 5) and persists nothing. -/
theorem submit_release_insufficient_stock_rejected_witness :
    (createReleasedOrderRequest dbSubmit empSession submitOverInput).1
      = dbSubmit ∧
    ∃ nm avail rq, (createReleasedOrderRequest dbSubmit empSession
        submitOverInput).2
        = Except.error (ApiErr.insufficientStock nm avail rq) ∧ avail < rq :=
  submit_release_insufficient_stock_rejected dbSubmit empSession
    submitOverInput rfl (by decide) (by decide)
    ⟨payload5B, by decide, itemB, by decide, by decide⟩

/-! ## Helper lemmas about the review machinery -/

theorem find?_map_congr {α : Type} (l : List α) (u : α → α) (p : α → Bool)
    (hp : ∀ x, p (u x) = p x) :
    (l.map u).find? p = (l.find? p).map u := by
  induction l with
  | nil => rfl
  | cons hd tl ih =>
    by_cases h : p hd = true
    · rw [List.map_cons, List.find?_cons_of_pos _ (by rw [hp]; exact h),
        List.find?_cons_of_pos _ h]
      rfl
    · rw [List.map_cons, List.find?_cons_of_neg _ (by rw [hp]; exact h),
        List.find?_cons_of_neg _ h, ih]

theorem invRequests_find_after_update (db : DB) (rid : String)
    (st : ReqStatus) (adminId : String) (sts : List (Nat × ItemStat))
    (req : InvRequest)
    (hfind : db.invRequests.find? (fun r => decide (r.id = rid)) = some req) :
    (updateInvRequestStatus db rid st adminId sts).invRequests.find?
      (fun r => decide (r.id = rid))
      = some { req with
               status := st, reviewedBy := some adminId, itemStatuses := sts } := by
  unfold updateInvRequestStatus
  rw [find?_map_congr _ _ _
    (fun r => by by_cases hr : r.id = rid <;> simp [hr])]
  rw [hfind]
  have hid : req.id = rid := by simpa using List.find?_some hfind
  simp [hid]

theorem resolveCategoryName_invRequests (db : DB) (p : ItemPayload) :
    (resolveCategoryName db p).1.invRequests = db.invRequests := by
  unfold resolveCategoryName getOrCreateCategory
  by_cases h : strTruthy p.categoryName = true
  · rw [if_pos h]
    cases hf : db.categories.find? (fun c => decide (c.name = p.categoryName.getD "")) <;>
      simp [hf]
  · rw [if_neg h]

theorem createItemFromApproval_invRequests (db : DB) (adminId : String)
    (p : ItemPayload) :
    (createItemFromApproval db adminId p).1.invRequests = db.invRequests := by
  unfold createItemFromApproval
  cases hrc : (resolveCategoryName db p).2 with
  | none =>
    simp only [hrc]
    exact resolveCategoryName_invRequests db p
  | some cid =>
    simp only [hrc]
    exact resolveCategoryName_invRequests db p

theorem createAllItems_invRequests (adminId : String)
    (items : List ItemPayload) : ∀ (db : DB) (i0 : Nat),
    (createAllItems adminId db items i0).1.invRequests = db.invRequests := by
  induction items with
  | nil => intro db i0; rfl
  | cons p rest ih =>
    intro db i0
    show (createAllItems adminId (createItemFromApproval db adminId p).1
        rest (i0 + 1)).1.invRequests = db.invRequests
    rw [ih]
    exact createItemFromApproval_invRequests db adminId p

theorem setStatus_cons_ne (q : Nat × ItemStat) (rest : List (Nat × ItemStat))
    (k : Nat) (v : ItemStat) (h : q.1 ≠ k) :
    setStatus (q :: rest) k v = q :: setStatus rest k v := by
  unfold setStatus
  by_cases h2 : rest.any (fun p => decide (p.1 = k)) = true
  · rw [if_pos (by simp [List.any_cons, h2]), if_pos h2, List.map_cons,
      if_neg h]
  · rw [if_neg (by simp [List.any_cons, h2, h]), if_neg h2, List.cons_append]

theorem lookupStatus_map_ne (m : List (Nat × ItemStat)) (k k2 : Nat)
    (v : ItemStat) (h : k2 ≠ k) :
    lookupStatus (m.map (fun p => if p.1 = k then (k, v) else p)) k2
      = lookupStatus m k2 := by
  induction m with
  | nil => rfl
  | cons q rest ih =>
    unfold lookupStatus at ih ⊢
    by_cases hq : q.1 = k
    · rw [List.map_cons, List.find?_cons_of_neg _ (by simp [hq]; omega),
        List.find?_cons_of_neg _ (by simp [hq]; omega)]
      exact ih
    · by_cases hq2 : q.1 = k2
      · rw [List.map_cons,
          List.find?_cons_of_pos _ (by rw [if_neg hq]; simp [hq2]),
          List.find?_cons_of_pos _ (by simp [hq2])]
        rw [if_neg hq]
      · rw [List.map_cons,
          List.find?_cons_of_neg _ (by rw [if_neg hq]; simp [hq2]),
          List.find?_cons_of_neg _ (by simp [hq2])]
        exact ih

theorem lookupStatus_append_ne (m : List (Nat × ItemStat)) (k k2 : Nat)
    (v : ItemStat) (h : k2 ≠ k) :
    lookupStatus (m ++ [(k, v)]) k2 = lookupStatus m k2 := by
  induction m with
  | nil =>
    unfold lookupStatus
    rw [List.nil_append, List.find?_cons_of_neg _ (by simp; omega)]
  | cons q rest ih =>
    unfold lookupStatus at ih ⊢
    by_cases hq : q.1 = k2
    · rw [List.cons_append, List.find?_cons_of_pos _ (by simp [hq]),
        List.find?_cons_of_pos _ (by simp [hq])]
    · rw [List.cons_append, List.find?_cons_of_neg _ (by simp [hq]),
        List.find?_cons_of_neg _ (by simp [hq])]
      exact ih

theorem lookupStatus_setStatus_self (m : List (Nat × ItemStat)) (k : Nat)
    (v : ItemStat) :
    lookupStatus (setStatus m k v) k = some v := by
  induction m with
  | nil =>
    unfold setStatus lookupStatus
    simp
  | cons q rest ih =>
    by_cases hq : q.1 = k
    · unfold setStatus
      rw [if_pos (by simp [List.any_cons, hq])]
      unfold lookupStatus
      rw [List.map_cons, List.find?_cons_of_pos _ (by simp [hq])]
      simp [hq]
    · rw [setStatus_cons_ne q rest k v hq]
      unfold lookupStatus at ih ⊢
      rw [List.find?_cons_of_neg _ (by simp [hq])]
      exact ih

theorem lookupStatus_setStatus_ne (m : List (Nat × ItemStat)) (k k2 : Nat)
    (v : ItemStat) (h : k2 ≠ k) :
    lookupStatus (setStatus m k v) k2 = lookupStatus m k2 := by
  unfold setStatus
  by_cases hany : m.any (fun p => decide (p.1 = k)) = true
  · rw [if_pos hany]
    exact lookupStatus_map_ne m k k2 v h
  · rw [if_neg hany]
    exact lookupStatus_append_ne m k k2 v h

theorem lookupStatus_setStatus_isSome (m : List (Nat × ItemStat))
    (k k2 : Nat) (v : ItemStat) :
    (lookupStatus (setStatus m k v) k2).isSome = true ↔
      (k2 = k ∨ (lookupStatus m k2).isSome = true) := by
  by_cases h : k2 = k
  · subst h
    simp [lookupStatus_setStatus_self]
  · rw [lookupStatus_setStatus_ne m k k2 v h]
    simp [h]

theorem lookupStatus_buildStatuses (ds : List Decision) :
    ∀ (m : List (Nat × ItemStat)) (k : Nat),
    (lookupStatus (buildStatuses ds m) k).isSome = true ↔
      (k ∈ ds.map (fun dec => dec.index) ∨
        (lookupStatus m k).isSome = true) := by
  induction ds with
  | nil => intro m k; simp [buildStatuses]
  | cons dec rest ih =>
    intro m k
    have hb : buildStatuses (dec :: rest) m
        = buildStatuses rest
            (setStatus m dec.index { status := dec.status, reason := dec.reason }) := rfl
    rw [hb, ih, lookupStatus_setStatus_isSome]
    simp only [List.map_cons, List.mem_cons]
    tauto

theorem countApproved_eq_length_iff (ds : List Decision) :
    countApproved ds = ds.length ↔
      ∀ dec ∈ ds, dec.status = DecStatus.approved := by
  unfold countApproved
  rw [← List.countP_eq_length_filter, List.countP_eq_length]
  simp

theorem countDenied_eq_length_iff (ds : List Decision) :
    countDenied ds = ds.length ↔
      ∀ dec ∈ ds, dec.status = DecStatus.denied := by
  unfold countDenied
  rw [← List.countP_eq_length_filter, List.countP_eq_length]
  simp

theorem countApproved_cons (dec : Decision) (rest : List Decision) :
    countApproved (dec :: rest)
      = (if dec.status = DecStatus.approved then 1 else 0)
        + countApproved rest := by
  unfold countApproved
  rw [List.filter_cons]
  by_cases h : dec.status = DecStatus.approved <;> simp [h, Nat.add_comm]

theorem countDenied_cons (dec : Decision) (rest : List Decision) :
    countDenied (dec :: rest)
      = (if dec.status = DecStatus.denied then 1 else 0)
        + countDenied rest := by
  unfold countDenied
  rw [List.filter_cons]
  by_cases h : dec.status = DecStatus.denied <;> simp [h, Nat.add_comm]

theorem processDecisions_ok (adminId : String) (items : List ItemPayload)
    (ds : List Decision) : ∀ (db : DB) (st : List (Nat × ItemStat))
    (a d : Nat) (cr : List InventoryItem),
    (∀ dec ∈ ds, dec.index < items.length) →
    ∃ db1 cr1,
      processDecisions adminId items db ds st a d cr
        = (db1, .ok (buildStatuses ds st, a + countApproved ds,
            d + countDenied ds, cr1)) ∧
      db1.invRequests = db.invRequests := by
  induction ds with
  | nil =>
    intro db st a d cr _
    exact ⟨db, cr, by simp [processDecisions, buildStatuses, countApproved,
      countDenied], rfl⟩
  | cons dec rest ih =>
    intro db st a d cr hidx
    cases hdec : dec.status with
    | denied =>
      obtain ⟨db1, cr1, heq, hpres⟩ :=
        ih db (setStatus st dec.index { status := dec.status, reason := dec.reason })
          a (d + 1) cr (fun x hx => hidx x (List.mem_cons_of_mem _ hx))
      refine ⟨db1, cr1, ?_, hpres⟩
      have hstep : processDecisions adminId items db (dec :: rest) st a d cr
          = processDecisions adminId items db rest
              (setStatus st dec.index { status := dec.status, reason := dec.reason })
              a (d + 1) cr := by
        simp only [processDecisions, hdec]
      rw [hstep, heq]
      have hca : countApproved (dec :: rest) = countApproved rest := by
        rw [countApproved_cons, hdec]; simp
      have hcd : countDenied (dec :: rest) = countDenied rest + 1 := by
        rw [countDenied_cons, hdec]; simp [Nat.add_comm]
      have hb : buildStatuses (dec :: rest) st
          = buildStatuses rest
              (setStatus st dec.index { status := dec.status, reason := dec.reason }) := rfl
      have harith : d + (countDenied rest + 1) = d + 1 + countDenied rest := by
        omega
      rw [hca, hcd, hb, harith]
    | approved =>
      have hlt := hidx dec (List.mem_cons_self _ _)
      cases hg : items.get? dec.index with
      | none => exact absurd (List.get?_eq_none.1 hg) (not_le.mpr hlt)
      | some p =>
        obtain ⟨db1, cr1, heq, hpres⟩ :=
          ih (createItemFromApproval db adminId p).1
            (setStatus st dec.index { status := dec.status, reason := dec.reason })
            (a + 1) d (cr ++ [(createItemFromApproval db adminId p).2])
            (fun x hx => hidx x (List.mem_cons_of_mem _ hx))
        refine ⟨db1, cr1, ?_,
          hpres.trans (createItemFromApproval_invRequests db adminId p)⟩
        have hstep : processDecisions adminId items db (dec :: rest) st a d cr
            = processDecisions adminId items (createItemFromApproval db adminId p).1
                rest
                (setStatus st dec.index { status := dec.status, reason := dec.reason })
                (a + 1) d (cr ++ [(createItemFromApproval db adminId p).2]) := by
          simp only [processDecisions, hdec, hg]
        rw [hstep, heq]
        have hca : countApproved (dec :: rest) = countApproved rest + 1 := by
          rw [countApproved_cons, hdec]; simp [Nat.add_comm]
        have hcd : countDenied (dec :: rest) = countDenied rest := by
          rw [countDenied_cons, hdec]; simp
        have hb : buildStatuses (dec :: rest) st
            = buildStatuses rest
                (setStatus st dec.index { status := dec.status, reason := dec.reason }) := rfl
        have harith : a + (countApproved rest + 1) = a + 1 + countApproved rest := by
          omega
        rw [hca, hcd, hb, harith]

theorem createAllItems_statuses (adminId : String)
    (items : List ItemPayload) : ∀ (db : DB) (i0 : Nat),
    (createAllItems adminId db items i0).2.1
      = (List.range items.length).map
          (fun j => (i0 + j,
            ({ status := DecStatus.approved, reason := none } : ItemStat))) := by
  induction items with
  | nil => intro db i0; rfl
  | cons p rest ih =>
    intro db i0
    show (i0, ({ status := DecStatus.approved, reason := none } : ItemStat))
        :: (createAllItems adminId (createItemFromApproval db adminId p).1
              rest (i0 + 1)).2.1
      = _
    rw [ih]
    rw [show (p :: rest).length = rest.length + 1 from rfl,
      List.range_succ_eq_map]
    rw [List.map_cons, List.map_map]
    refine congrArg₂ _ (by simp) ?_
    apply List.map_congr_left
    intro j _
    show (i0 + 1 + j, _) = (i0 + (j + 1), _)
    rw [show i0 + 1 + j = i0 + (j + 1) from by omega]

theorem lookupStatus_keys_mem (f : Nat → ItemStat) (keys : List Nat)
    (i : Nat) (h : i ∈ keys) :
    (lookupStatus (keys.map (fun j => (j, f j))) i).isSome = true := by
  induction keys with
  | nil => cases h
  | cons k rest ih =>
    unfold lookupStatus at ih ⊢
    by_cases hk : k = i
    · rw [List.map_cons, List.find?_cons_of_pos _ (by simp [hk])]
      rfl
    · rw [List.map_cons, List.find?_cons_of_neg _ (by simp [hk])]
      refine ih ?_
      rcases List.mem_cons.1 h with rfl | hm
      · exact absurd rfl hk
      · exact hm

/-! ## Claim C4 -/

/-- Claim C4 (code_bug): the inventory-request review endpoint has no
pending-status guard.  Reviewing the already-approved request q1 a second
time with a blanket approval succeeds instead of failing with a Conflict:
it creates the requested inventory item again (one more row), sends
another notification, and overwrites the stored review — contradicting
the spec rule that a request transitions exactly once and that re-review
must be rejected with no side effects.  (The sibling release-request
review endpoint does implement the guard.) -/
theorem inventory_rereview_not_rejected :
    invReqDone.status ≠ ReqStatus.pending ∧
    ((reviewInventoryRequest dbRereview "adm" "q1" blanketApprove).2.toOption.isSome)
      = true ∧
    (reviewInventoryRequest dbRereview "adm" "q1" blanketApprove).1.items.length
      = dbRereview.items.length + 1 ∧
    (reviewInventoryRequest dbRereview "adm" "q1" blanketApprove).1.notifications.length
      = dbRereview.notifications.length + 1 := by
  refine ⟨by decide, by decide, by decide, by decide⟩

/-! ## Claim C9 -/

/-- Claim C9 (code_bug): a blanket approval of a pending single-item
request creates the inventory item, yet the employee notification carries
type alert and title "Request Denied" while its message says the item was
approved — because the handler only increments its approvedCount counter
in the per-item-decision branch, never in the blanket branch.  The claim
(and the spec) require type success whenever at least one item was
approved. -/
theorem blanket_approval_notification_alert :
    invReqPending.status = ReqStatus.pending ∧
    (reviewInventoryRequest dbReview "adm" "q1" blanketApprove).1.items.length
      = 1 ∧
    ((reviewInventoryRequest dbReview "adm" "q1" blanketApprove).1.notifications.map
      (fun n => (n.type, n.title)))
      = [(NotifType.alert, "Request Denied")] ∧
    ((reviewInventoryRequest dbReview "adm" "q1" blanketApprove).1.notifications.map
      (fun n => n.message))
      = ["Your item \"Pen\" has been approved and added to inventory!"] := by
  refine ⟨by decide, by decide, by decide, by decide⟩

/-! ## Claim C10 -/

/-- Claim C10 (confirmed): whenever an employee Generate call that names
a stored release request succeeds, the departmentOffice, rsNo and
isPartial recorded on the resulting report are taken from the stored
request (rsNo through the JavaScript or-undefined collapse of the empty
string), not from the caller-supplied body; and nevertheless any Generate
body with an empty departmentOffice is rejected by schema validation. -/
theorem employee_generate_fields_from_request
    (db : DB) (s : Session) (input : GenerateInput) (sro : String)
    (rid : String) (req : RelRequest)
    (hrole : s.role = Role.employee)
    (hrid : input.requestId = some rid)
    (hfind : db.relRequests.find? (fun r => decide (r.id = rid)) = some req)
    (hok : ((generateReleasedOrder db s input sro).2.toOption.isSome) = true) :
    ((generateReleasedOrder db s input sro).2.toOption.map
      (fun r => (r.departmentOffice, r.rsNo, r.partialFlag)))
      = some (req.departmentOffice, jsOrNone req.rsNo, req.partialFlag) ∧
    ∀ i2 : GenerateInput, i2.departmentOffice = "" →
      (generateReleasedOrder db s i2 sro).2 = Except.error ApiErr.zodErr := by
  constructor
  · unfold generateReleasedOrder at hok ⊢
    by_cases hv : generateInputValid input = false
    · rw [if_pos hv] at hok
      simp [Except.toOption] at hok
    · rw [if_neg hv] at hok ⊢
      simp only [resolveItems, hrole, hrid, hfind] at hok ⊢
      by_cases h1 : req.employeeId ≠ s.userId
      · rw [if_pos h1] at hok
        simp [Except.toOption] at hok
      · rw [if_neg h1] at hok ⊢
        by_cases h2 : req.status ≠ ReqStatus.approved ∧
            req.status ≠ ReqStatus.partialApproval
        · rw [if_pos h2] at hok
          simp [Except.toOption] at hok
        · rw [if_neg h2] at hok ⊢
          dsimp only at hok ⊢
          cases hval : validatePhase db (approvedItemsOf req) with
          | some e =>
            simp only [hval] at hok
            simp [Except.toOption] at hok
          | none =>
            simp only [hval]
            rfl
  · intro i2 h2
    unfold generateReleasedOrder
    rw [if_pos (by unfold generateInputValid; rw [h2]; rfl)]

/-- Witness for the C10 theorem: the employee Generate against request r1
(departmentOffice "Office A", rsNo "RS-7", isPartial false) succeeds and
its report carries those stored values although the caller supplied
"IGNORED", "CALLER-RS" and isPartial true. -/
theorem employee_generate_fields_from_request_witness :
    ((generateReleasedOrder dbEmp empSession genEmpInput "SRO-1").2.toOption.map
      (fun r => (r.departmentOffice, r.rsNo, r.partialFlag)))
      = some (relReqApproved.departmentOffice, jsOrNone relReqApproved.rsNo,
          relReqApproved.partialFlag) :=
  (employee_generate_fields_from_request dbEmp empSession genEmpInput "SRO-1"
    "r1" relReqApproved rfl rfl (by decide) (by decide)).1

theorem notifyReviewedEmployee_invRequests (db : DB) (req : InvRequest)
    (s : ReviewStatus) (a d : Nat) (cr : List InventoryItem) :
    (notifyReviewedEmployee db req s a d cr).invRequests = db.invRequests := rfl

/-! ## Claim C3 -/

/-- Claim C3, counterexample: reviewing the pending release request r1
with per-item decisions that deny its only item while the caller-supplied
blanket status says approved persists the status approved — although
every per-item outcome is denied, where the claim requires the persisted
status to be the pure function of the outcomes (here: denied).  The
release review persists the caller status verbatim. -/
theorem release_review_status_not_derived :
    relReqPending.status = ReqStatus.pending ∧
    (reviewReleaseRequest dbRelReview "adm" "r1" denyAllButApproveInput).2
      = Except.ok () ∧
    relRequestStatusOf
      (reviewReleaseRequest dbRelReview "adm" "r1" denyAllButApproveInput).1 "r1"
      = some ReqStatus.approved ∧
    relRequestStatusesOf
      (reviewReleaseRequest dbRelReview "adm" "r1" denyAllButApproveInput).1 "r1"
      = some [(0, { status := DecStatus.denied, reason := some "other" })] := by
  refine ⟨by decide, by decide, by decide, by decide⟩

/-- Claim C3, amended: the derivation law holds only in the bulk
inventory-review path with per-item decisions: when the supplied
decisions cover the item indices exactly once, the persisted status is
approved iff every decision approved, denied iff every decision denied,
and partial otherwise — regardless of the caller-supplied blanket status.
Blanket inventory reviews and all release reviews instead persist the
caller-supplied status verbatim (see the counterexample). -/
theorem bulk_review_status_derivation
    (db : DB) (adminId rid : String) (input : ReviewInput) (req : InvRequest)
    (ds : List Decision)
    (hfind : db.invRequests.find? (fun r => decide (r.id = rid)) = some req)
    (hbulk : req.requestType = ReqType.bulk)
    (hds : input.itemDecisions = some ds)
    (hidx : ∀ dec ∈ ds, dec.index < req.items.length)
    (hlen : ds.length = req.items.length)
    (_hnd : (ds.map (fun dec => dec.index)).Nodup) :
    invRequestStatusOf (reviewInventoryRequest db adminId rid input).1 rid
      = some (if ∀ dec ∈ ds, dec.status = DecStatus.approved then
                ReqStatus.approved
              else if ∀ dec ∈ ds, dec.status = DecStatus.denied then
                ReqStatus.denied
              else ReqStatus.partialApproval) := by
  obtain ⟨db1, cr1, heq, hpres⟩ :=
    processDecisions_ok adminId req.items ds db [] 0 0 [] hidx
  unfold reviewInventoryRequest
  simp only [hfind, hbulk, hds, heq]
  unfold invRequestStatusOf
  rw [notifyReviewedEmployee_invRequests,
    invRequests_find_after_update db1 rid _ adminId _ req
      (by rw [hpres]; exact hfind)]
  simp only [Option.map_some']
  congr 1
  by_cases hA : ∀ dec ∈ ds, dec.status = DecStatus.approved
  · have hca : countApproved ds = ds.length :=
      (countApproved_eq_length_iff ds).2 hA
    rw [if_pos hA,
      if_pos (show 0 + countApproved ds = req.items.length by omega)]
  · have hca : countApproved ds ≠ ds.length := fun hc =>
      hA ((countApproved_eq_length_iff ds).1 hc)
    rw [if_neg hA,
      if_neg (show ¬ 0 + countApproved ds = req.items.length by omega)]
    by_cases hD : ∀ dec ∈ ds, dec.status = DecStatus.denied
    · have hcd : countDenied ds = ds.length :=
        (countDenied_eq_length_iff ds).2 hD
      rw [if_pos hD,
        if_pos (show 0 + countDenied ds = req.items.length by omega)]
    · have hcd : countDenied ds ≠ ds.length := fun hc =>
        hD ((countDenied_eq_length_iff ds).1 hc)
      rw [if_neg hD,
        if_neg (show ¬ 0 + countDenied ds = req.items.length by omega)]

/-- Witness for the amended C3 theorem: the bulk request q2 reviewed with
one approved and one denied decision (covering its two items exactly) is
persisted as partial, whatever blanket status the caller sent. -/
theorem bulk_review_status_derivation_witness :
    invRequestStatusOf
      (reviewInventoryRequest dbBulk "adm" "q2" mixedCoverInput).1 "q2"
      = some ReqStatus.partialApproval := by
  have h := bulk_review_status_derivation dbBulk "adm" "q2" mixedCoverInput
    invReqBulk
    [{ index := 0, status := DecStatus.approved, reason := none },
     { index := 1, status := DecStatus.denied, reason := some "other" }]
    (by decide) (by decide) rfl (by decide) (by decide) (by decide)
  rw [h]
  decide

/-! ## Claim C7 -/

/-- Claim C7, counterexample: reviewing the two-item bulk request q2 with
a single per-item decision covering only index 0 is accepted (no
validation error) and persists an itemStatuses map holding exactly one
entry: index 1 is silently left without an entry, where the claim
requires either full coverage or rejection. -/
theorem bulk_review_partial_coverage_accepted :
    invReqBulk.items.length = 2 ∧
    ((reviewInventoryRequest dbBulk "adm" "q2" partialCoverInput).2.toOption.isSome)
      = true ∧
    invRequestStatusesOf
      (reviewInventoryRequest dbBulk "adm" "q2" partialCoverInput).1 "q2"
      = some [(0, { status := DecStatus.approved, reason := none })] ∧
    lookupStatus
      [(0, ({ status := DecStatus.approved, reason := none } : ItemStat))] 1
      = none := by
  refine ⟨by decide, by decide, by decide, by decide⟩

/-- Claim C7, amended: a blanket review (no per-item decisions) persists
an itemStatuses entry for every item of the request; a bulk review with
per-item decisions is accepted without any coverage validation and
persists entries for exactly the supplied decision indices — uncovered
indices are silently left without an entry rather than rejected. -/
theorem review_item_statuses_coverage
    (db : DB) (adminId rid : String) (input : ReviewInput) (req : InvRequest)
    (ds : List Decision)
    (hfind : db.invRequests.find? (fun r => decide (r.id = rid)) = some req) :
    (input.itemDecisions = none →
      ∃ st, invRequestStatusesOf (reviewInventoryRequest db adminId rid input).1 rid
          = some st ∧
        ∀ i, i < req.items.length → (lookupStatus st i).isSome = true) ∧
    (req.requestType = ReqType.bulk → input.itemDecisions = some ds →
      (∀ dec ∈ ds, dec.index < req.items.length) →
      ∃ st res,
        invRequestStatusesOf (reviewInventoryRequest db adminId rid input).1 rid
          = some st ∧
        (reviewInventoryRequest db adminId rid input).2 = Except.ok res ∧
        ∀ i, ((lookupStatus st i).isSome = true ↔
          i ∈ ds.map (fun dec => dec.index))) := by
  constructor
  · intro hnone
    unfold reviewInventoryRequest
    simp only [hfind, hnone]
    cases hrt : req.requestType <;>
    · by_cases hst : input.status = ReviewStatus.approved
      · rw [if_pos hst]
        refine ⟨(createAllItems adminId db req.items 0).2.1, ?_, ?_⟩
        · unfold invRequestStatusesOf
          rw [notifyReviewedEmployee_invRequests,
            invRequests_find_after_update _ rid _ adminId _ req
              (by rw [createAllItems_invRequests]; exact hfind)]
          simp
        · intro i hi
          rw [createAllItems_statuses]
          have hzero : (List.range req.items.length).map
              (fun j => (0 + j,
                ({ status := DecStatus.approved, reason := none } : ItemStat)))
              = (List.range req.items.length).map
                  (fun j => (j,
                    ({ status := DecStatus.approved, reason := none } : ItemStat))) := by
            apply List.map_congr_left
            intro j _
            simp
          rw [hzero]
          exact lookupStatus_keys_mem
            (fun _ => { status := DecStatus.approved, reason := none })
            (List.range req.items.length) i (List.mem_range.2 hi)
      · rw [if_neg hst]
        refine ⟨(List.range req.items.length).map
            (fun i => (i, ({ status := DecStatus.denied, reason := none } : ItemStat))),
          ?_, ?_⟩
        · unfold invRequestStatusesOf
          rw [notifyReviewedEmployee_invRequests,
            invRequests_find_after_update _ rid _ adminId _ req hfind]
          simp
        · intro i hi
          exact lookupStatus_keys_mem
            (fun _ => { status := DecStatus.denied, reason := none })
            (List.range req.items.length) i (List.mem_range.2 hi)
  · intro hbulk hds hidx
    obtain ⟨db1, cr1, heq, hpres⟩ :=
      processDecisions_ok adminId req.items ds db [] 0 0 [] hidx
    unfold reviewInventoryRequest
    simp only [hfind, hbulk, hds, heq]
    refine ⟨buildStatuses ds [],
      { approvedCount := 0 + countApproved ds,
        deniedCount := 0 + countDenied ds, createdItems := cr1 }, ?_, rfl, ?_⟩
    · unfold invRequestStatusesOf
      rw [notifyReviewedEmployee_invRequests,
        invRequests_find_after_update db1 rid _ adminId _ req
          (by rw [hpres]; exact hfind)]
      simp
    · intro i
      rw [lookupStatus_buildStatuses]
      simp [lookupStatus]

/-- Witness for the amended C7 theorem: the bulk review of q2 with the
single decision for index 0 is accepted and persists entries exactly for
index 0. -/
theorem review_item_statuses_coverage_witness :
    ∃ st res,
      invRequestStatusesOf
        (reviewInventoryRequest dbBulk "adm" "q2" partialCoverInput).1 "q2"
        = some st ∧
      (reviewInventoryRequest dbBulk "adm" "q2" partialCoverInput).2
        = Except.ok res ∧
      ∀ i, ((lookupStatus st i).isSome = true ↔
        i ∈ ([{ index := 0, status := DecStatus.approved, reason := none }]
          : List Decision).map (fun dec => dec.index)) :=
  (review_item_statuses_coverage dbBulk "adm" "q2" partialCoverInput invReqBulk
    [{ index := 0, status := DecStatus.approved, reason := none }]
    (by decide)).2 (by decide) rfl (by decide)

end GSO
